import Mathlib

/-
Verification of the spark-tk frame-construction layer: schema inference,
validated casting, and the random-forest seed derivation.

The shallow embedding below follows src/python/sparktk/frame/constructors/create.py
and src/python/sparktk/models/classification/random_forest_classifier.py.
The schema-inference and casting engine lives in the Frame class
(sparktk/frame/frame.py), which is not part of the provided sources; those
parts are modelled from the specification, as marked on each definition.
-/

namespace sparktk

/-- The supported scalar data types, ordered by generality Int < Float < String. -/
inductive DataType where
  | IntT
  | FloatT
  | StringT
  deriving DecidableEq, Repr

/-- Generality rank of a data type: position in the total order Int < Float < String. -/
def rank : DataType → Nat
  | .IntT => 0
  | .FloatT => 1
  | .StringT => 2

/-- Modelled from the spec: Type Lattice widening (sparktk frame.py is not in the
provided sources). Returns the more general of the two types per the total order
Int < Float < String. -/
def generalize (a b : DataType) : DataType :=
  if rank b ≤ rank a then a else b

/-- Raw cell values as the closed tagged variant the spec prescribes for the
dynamically-typed Python boundary: integers, floats (modelled exactly as
rationals), text, and the null sentinel None. -/
inductive Value where
  | VInt (n : Int)
  | VFloat (q : Rat)
  | VStr (s : String)
  | VNone
  deriving DecidableEq, Repr

/-- Modelled from the spec: Type Lattice classification of a raw value as the
narrowest type it exactly matches; null sentinels fall back to String. -/
def infer_scalar_type : Value → DataType
  | .VInt _ => .IntT
  | .VFloat _ => .FloatT
  | .VStr _ => .StringT
  | .VNone => .StringT

/-- Numeric value of a list of decimal digit characters, most significant first. -/
def digitsToNat (cs : List Char) : Nat :=
  cs.foldl (fun a c => a * 10 + (c.toNat - 48)) 0

/-- Parse a nonempty all-digit character list; anything else fails. -/
def parseNatDigits (cs : List Char) : Option Nat :=
  if !cs.isEmpty && cs.all Char.isDigit then some (digitsToNat cs) else none

/-- Modelled from the spec: literal integer parse used by the Cell Caster
(frame.py is not in the provided sources). An optional leading minus sign
followed by one or more digits; empty or whitespace-only text fails. -/
def parseInt (s : String) : Option Int :=
  match s.toList with
  | '-' :: rest => (parseNatDigits rest).map (fun n => -(n : Int))
  | cs => (parseNatDigits cs).map (fun n => (n : Int))

/-- Fractional value of digit characters after the decimal point. -/
def fracVal (cs : List Char) : Rat :=
  cs.foldr (fun c a => (((c.toNat - 48 : Nat) : Rat) + a) / 10) 0

/-- Parse an unsigned decimal literal: digits optionally followed by a point
and more digits. -/
def parseUnsignedFloat (cs : List Char) : Option Rat :=
  let intPart := cs.takeWhile Char.isDigit
  let rest := cs.dropWhile Char.isDigit
  if intPart.isEmpty then none
  else
    match rest with
    | [] => some ((digitsToNat intPart : Nat) : Rat)
    | '.' :: frac =>
        if !frac.isEmpty && frac.all Char.isDigit then
          some (((digitsToNat intPart : Nat) : Rat) + fracVal frac)
        else none
    | _ => none

/-- Modelled from the spec: literal decimal parse used by the Cell Caster
(frame.py is not in the provided sources). -/
def parseFloat (s : String) : Option Rat :=
  match s.toList with
  | '-' :: rest => (parseUnsignedFloat rest).map (fun q => -q)
  | cs => parseUnsignedFloat cs

/-- Per-cell cast result: a successfully coerced value, or a distinguished failure. -/
inductive CastOutcome where
  | success (v : Value)
  | failure
  deriving DecidableEq, Repr

/-- Modelled from the spec: the Cell Caster (frame.py is not in the provided
sources). A value already of the target type is returned unchanged; numeric
values are widened towards more general targets; narrowing goes through a
literal parse and fails when the textual form does not parse exactly. -/
def cast (v : Value) (t : DataType) : CastOutcome :=
  match v, t with
  | .VInt n, .IntT => .success (.VInt n)
  | .VInt n, .FloatT => .success (.VFloat (n : Rat))
  | .VInt n, .StringT => .success (.VStr (toString n))
  | .VFloat q, .FloatT => .success (.VFloat q)
  | .VFloat q, .StringT => .success (.VStr (toString q.num ++ "/" ++ toString q.den))
  | .VFloat q, .IntT => if q.den = 1 then .success (.VInt q.num) else .failure
  | .VStr s, .StringT => .success (.VStr s)
  | .VStr s, .IntT =>
      match parseInt s with
      | some n => .success (.VInt n)
      | none => .failure
  | .VStr s, .FloatT =>
      match parseFloat s with
      | some q => .success (.VFloat q)
      | none => .failure
  | .VNone, .StringT => .success .VNone
  | .VNone, .IntT => .failure
  | .VNone, .FloatT => .failure

abbrev ColumnName := String
abbrev Schema := List (ColumnName × DataType)
abbrev Row := List Value

/-- The closed set of error kinds the construction layer surfaces upward. -/
inductive FrameError where
  | emptySourceError
  | schemaLengthMismatchError
  | rowWidthMismatchError
  | missingContextError
  deriving DecidableEq, Repr

/-- The inference sample is bounded at 100 rows. -/
def sampleSize : Nat := 100

/-- Modelled from the spec: the bounded SampleSet, the first 100 rows of the source. -/
def sample (data : List Row) : List Row := data.take sampleSize

/-- Observed row width: the field count of the first sampled row. -/
def rowWidth (rows : List Row) : Nat := (rows.headD []).length

/-- Values occupying column position i across the given rows. -/
def columnValues (rows : List Row) (i : Nat) : List Value :=
  rows.map (fun r => r.getD i .VNone)

/-- Modelled from the spec: per-column type inference (frame.py is not in the
provided sources). Fold generalize left-to-right over the natural types of the
sampled values, seeded with the first row's inferred type. -/
def inferColumnType : List Value → DataType
  | [] => .StringT
  | v :: rest =>
      rest.foldl (fun t w => generalize t (infer_scalar_type w)) (infer_scalar_type v)

/-- Inferred types for every column position of the sampled rows. -/
def inferTypes (rows : List Row) : List DataType :=
  (List.range (rowWidth rows)).map (fun i => inferColumnType (columnValues rows i))

/-- Synthesized column names C0, C1, C2, ... in column order. -/
def synthNames (n : Nat) : List ColumnName :=
  (List.range n).map (fun i => "C" ++ toString i)

/-- The three forms of the optional schema argument of create: nothing, a bare
column-name list, or a full (name, type) schema. -/
inductive SchemaInput where
  | noSchema
  | names (ns : List ColumnName)
  | full (s : Schema)

/-- Modelled from the spec: the Schema Resolver (frame.py is not in the provided
sources). A full schema is returned as-is; otherwise types are inferred from the
bounded sample, with names taken from the input list or synthesized as C0, C1, ... -/
def resolve (schemaIn : SchemaInput) (data : List Row) : Except FrameError Schema :=
  match schemaIn with
  | .full s => .ok s
  | .names ns =>
      let smp := sample data
      if smp.isEmpty then .error .emptySourceError
      else if ns.length ≠ rowWidth smp then .error .schemaLengthMismatchError
      else .ok (ns.zip (inferTypes smp))
  | .noSchema =>
      let smp := sample data
      if smp.isEmpty then .error .emptySourceError
      else .ok ((synthNames (rowWidth smp)).zip (inferTypes smp))

/-- Lenient per-cell cast: a failed cast becomes the absence marker None. -/
def castCell (v : Value) (t : DataType) : Value :=
  match cast v t with
  | .success w => w
  | .failure => .VNone

/-- Modelled from the spec: lenient validation of one row (frame.py is not in
the provided sources). A row whose field count disagrees with the schema is a
structural error; otherwise every cell is cast to its column's declared type. -/
def castRow (sch : Schema) (row : Row) : Except FrameError Row :=
  if row.length = sch.length then
    .ok (List.zipWith (fun c v => castCell v c.2) sch row)
  else .error .rowWidthMismatchError

/-- Cast every row against the schema, aborting on the first structural error. -/
def castRows (sch : Schema) : List Row → Except FrameError (List Row)
  | [] => .ok []
  | r :: rs =>
      match castRow sch r with
      | .error e => .error e
      | .ok r2 =>
          match castRows sch rs with
          | .error e => .error e
          | .ok rs2 => .ok (r2 :: rs2)

/-- Modelled from the spec: the Frame Materializer (frame.py is not in the
provided sources). With validation disabled rows pass through unchanged; with
validation enabled every row is cast leniently against the schema. -/
def materialize (sch : Schema) (rows : List Row) (validateSchema : Bool) :
    Except FrameError (List Row) :=
  if validateSchema then castRows sch rows else .ok rows

/-- The execution-engine context (TkContext); its internals are external to the core. -/
structure TkContext where

/-- A materialized frame: finalized schema plus the typed row set. -/
structure Frame where
  schema : Schema
  rows : List Row
  deriving DecidableEq, Repr

/-- Modelled from the spec: the Frame constructor invoked by create
(sparktk/frame/frame.py is not in the provided sources): resolve the schema
against the sampled data, then materialize the rows under the validation flag. -/
def mkFrame (_t : TkContext) (data : List Row) (schemaIn : SchemaInput)
    (validateSchema : Bool) : Except FrameError Frame :=
  match resolve schemaIn data with
  | .error e => .error e
  | .ok sch =>
      match materialize sch data validateSchema with
      | .error e => .error e
      | .ok rows => .ok ⟨sch, rows⟩

/-- Embedding of create (create.py lines 101-104): fail fast when no TkContext
was supplied, otherwise construct a Frame from exactly the given data, schema
and validation flag. -/
def create (data : List Row) (schemaIn : SchemaInput) (validateSchema : Bool)
    (tc : Option TkContext) : Except FrameError Frame :=
  match tc with
  | none => .error .missingContextError
  | some t => mkFrame t data schemaIn validateSchema

/-- Embedding of the seed value forwarded to the engine by random-forest train
(random_forest_classifier.py line 58): int(os.urandom(2).encode(hex), 16) when
the caller supplied no seed, modelling the two entropy bytes as explicit inputs. -/
def urandomHexSeed (b0 b1 : Fin 256) : Int :=
  ((b0.val * 256 + b1.val : Nat) : Int)

/-- Embedding of the seed resolution in train: a caller-supplied seed is kept,
None is replaced by the two-byte entropy value. -/
def trainSeed (seed : Option Int) (b0 b1 : Fin 256) : Int :=
  match seed with
  | some s => s
  | none => urandomHexSeed b0 b1

/-! Helper lemmas about the type lattice and the inference fold. -/

lemma generalize_self (a : DataType) : generalize a a = a := by
  cases a <;> rfl

lemma generalize_comm (a b : DataType) : generalize a b = generalize b a := by
  cases a <;> cases b <;> rfl

lemma rank_le_generalize_left (a b : DataType) : rank a ≤ rank (generalize a b) := by
  cases a <;> cases b <;> decide

lemma rank_le_generalize_right (a b : DataType) : rank b ≤ rank (generalize a b) := by
  cases a <;> cases b <;> decide

lemma generalize_eq_left_or_right (a b : DataType) :
    generalize a b = a ∨ generalize a b = b := by
  cases a <;> cases b <;> decide

lemma foldl_generalize_mem (l : List Value) (t : DataType) :
    l.foldl (fun t w => generalize t (infer_scalar_type w)) t = t
      ∨ l.foldl (fun t w => generalize t (infer_scalar_type w)) t ∈ l.map infer_scalar_type := by
  induction l generalizing t with
  | nil => exact Or.inl rfl
  | cons v rest ih =>
      simp only [List.foldl_cons, List.map_cons]
      rcases ih (generalize t (infer_scalar_type v)) with h | h
      · rw [h]
        rcases generalize_eq_left_or_right t (infer_scalar_type v) with h2 | h2
        · exact Or.inl h2
        · exact Or.inr (by rw [h2]; exact List.mem_cons_self _ _)
      · exact Or.inr (List.mem_cons_of_mem _ h)

lemma rank_le_foldl_seed (l : List Value) (t : DataType) :
    rank t ≤ rank (l.foldl (fun t w => generalize t (infer_scalar_type w)) t) := by
  induction l generalizing t with
  | nil => exact le_refl _
  | cons v rest ih =>
      simp only [List.foldl_cons]
      exact le_trans (rank_le_generalize_left t (infer_scalar_type v)) (ih _)

lemma rank_le_foldl_mem (l : List Value) (t : DataType) (v : Value) :
    v ∈ l →
      rank (infer_scalar_type v)
        ≤ rank (l.foldl (fun t w => generalize t (infer_scalar_type w)) t) := by
  induction l generalizing t with
  | nil => intro h; cases h
  | cons w rest ih =>
      intro h
      simp only [List.foldl_cons]
      rcases List.mem_cons.mp h with h2 | h2
      · subst h2
        exact le_trans (rank_le_generalize_right t _) (rank_le_foldl_seed rest _)
      · exact ih _ h2

lemma foldl_generalize_int (l : List Value)
    (h : ∀ v ∈ l, infer_scalar_type v = DataType.IntT) :
    l.foldl (fun t w => generalize t (infer_scalar_type w)) DataType.IntT = DataType.IntT := by
  rcases foldl_generalize_mem l DataType.IntT with h2 | h2
  · exact h2
  · rcases List.mem_map.mp h2 with ⟨v, hv, he⟩
    rw [← he]
    exact h v hv

lemma synthNames_length (n : Nat) : (synthNames n).length = n := by
  simp [synthNames]

lemma inferTypes_length (rows : List Row) : (inferTypes rows).length = rowWidth rows := by
  simp [inferTypes]

lemma resolve_noSchema_ok (data : List Row) (sch : Schema)
    (h : resolve SchemaInput.noSchema data = Except.ok sch) :
    sch = (synthNames (rowWidth (sample data))).zip (inferTypes (sample data)) := by
  simp only [resolve] at h
  split at h
  · exact Except.noConfusion h
  · injection h with h2
    exact h2.symm

lemma resolve_error (s : SchemaInput) (data : List Row) (e : FrameError)
    (h : resolve s data = Except.error e) :
    e = FrameError.emptySourceError ∨ e = FrameError.schemaLengthMismatchError := by
  cases s with
  | full s2 => exact Except.noConfusion h
  | names ns =>
      simp only [resolve] at h
      split at h
      · injection h with h2
        exact Or.inl h2.symm
      · split at h
        · injection h with h2
          exact Or.inr h2.symm
        · exact Except.noConfusion h
  | noSchema =>
      simp only [resolve] at h
      split at h
      · injection h with h2
        exact Or.inl h2.symm
      · exact Except.noConfusion h

lemma castRow_error (sch : Schema) (row : Row) (e : FrameError)
    (h : castRow sch row = Except.error e) : e = FrameError.rowWidthMismatchError := by
  unfold castRow at h
  split at h
  · exact Except.noConfusion h
  · injection h with h2
    exact h2.symm

lemma castRow_ok_length (sch : Schema) (row : Row) (out : Row)
    (h : castRow sch row = Except.ok out) : out.length = min sch.length row.length := by
  unfold castRow at h
  split at h
  · injection h with h2
    rw [← h2]
    exact List.length_zipWith _ _ _
  · exact Except.noConfusion h

lemma castRows_error (sch : Schema) (rows : List Row) :
    ∀ e, castRows sch rows = Except.error e → e = FrameError.rowWidthMismatchError := by
  induction rows with
  | nil => intro e h; exact Except.noConfusion h
  | cons r rs ih =>
      intro e h
      simp only [castRows] at h
      cases hcr : castRow sch r with
      | error e2 =>
          rw [hcr] at h
          injection h with h2
          rw [← h2]
          exact castRow_error sch r e2 hcr
      | ok r2 =>
          rw [hcr] at h
          cases hcs : castRows sch rs with
          | error e3 =>
              rw [hcs] at h
              injection h with h2
              rw [← h2]
              exact ih e3 hcs
          | ok rs2 =>
              rw [hcs] at h
              exact Except.noConfusion h

lemma castRows_ok_length (sch : Schema) (rows : List Row) (out : List Row)
    (h : castRows sch rows = Except.ok out) : out.length = rows.length := by
  induction rows generalizing out with
  | nil =>
      injection h with h2
      rw [← h2]
  | cons r rs ih =>
      simp only [castRows] at h
      cases hcr : castRow sch r with
      | error e2 =>
          rw [hcr] at h
          exact Except.noConfusion h
      | ok r2 =>
          rw [hcr] at h
          cases hcs : castRows sch rs with
          | error e3 =>
              rw [hcs] at h
              exact Except.noConfusion h
          | ok rs2 =>
              rw [hcs] at h
              injection h with h2
              rw [← h2]
              simp [ih rs2 hcs]

lemma materialize_error (sch : Schema) (rows : List Row) (v : Bool) (e : FrameError)
    (h : materialize sch rows v = Except.error e) : e = FrameError.rowWidthMismatchError := by
  unfold materialize at h
  cases v with
  | false => exact Except.noConfusion h
  | true => exact castRows_error sch rows e h

lemma mkFrame_error (t : TkContext) (data : List Row) (s : SchemaInput) (v : Bool)
    (e : FrameError) (h : mkFrame t data s v = Except.error e) :
    e = FrameError.emptySourceError ∨ e = FrameError.schemaLengthMismatchError
      ∨ e = FrameError.rowWidthMismatchError := by
  unfold mkFrame at h
  cases hres : resolve s data with
  | error e2 =>
      rw [hres] at h
      injection h with h2
      rcases resolve_error s data e2 hres with h3 | h3
      · exact Or.inl (h2 ▸ h3)
      · exact Or.inr (Or.inl (h2 ▸ h3))
  | ok sch =>
      simp only [hres] at h
      cases hm : materialize sch data v with
      | error e3 =>
          simp only [hm] at h
          injection h with h2
          exact Or.inr (Or.inr (h2 ▸ materialize_error sch data v e3 hm))
      | ok rows => simp only [hm] at h; exact Except.noConfusion h

lemma sample_take (data : List Row) : sample (data.take 100) = sample data := by
  simp [sample, sampleSize, List.take_take]

/-! Claim theorems. -/

/-- C6: the type-lattice widening generalize is commutative and idempotent over
the supported data types, returning the more general per Int < Float < String. -/
theorem c6_generalize_comm_idem :
    ∀ a b : DataType, generalize a b = generalize b a ∧ generalize a a = a :=
  fun a b => ⟨generalize_comm a b, generalize_self a⟩

/-- C10: random-forest train forwards a caller-supplied seed to the engine
unchanged; a missing seed is replaced by the value of two OS-entropy bytes,
hence always within 0..65535 inclusive. -/
theorem c10_train_seed :
    (∀ (s : Int) (b0 b1 : Fin 256), trainSeed (some s) b0 b1 = s)
    ∧ (∀ b0 b1 : Fin 256,
        0 ≤ trainSeed none b0 b1 ∧ trainSeed none b0 b1 ≤ 65535) := by
  constructor
  · intro s b0 b1; rfl
  · intro b0 b1
    have h0 := b0.isLt
    have h1 := b1.isLt
    simp only [trainSeed, urandomHexSeed]
    omega

/-- C8: creating a frame from a source with zero rows when the schema must be
inferred (no full schema supplied) fails immediately with EmptySourceError. -/
theorem c8_empty_source :
    ∀ (v : Bool) (t : TkContext),
      create [] SchemaInput.noSchema v (some t) = Except.error FrameError.emptySourceError
      ∧ ∀ ns : List ColumnName,
          create [] (SchemaInput.names ns) v (some t)
            = Except.error FrameError.emptySourceError := by
  intro v t
  exact ⟨rfl, fun ns => rfl⟩

/-- C9: create fails fast with the missing-context error when no TkContext is
supplied; with a context the error branch is not taken and the Frame is built
from exactly the given data, schema input and validation flag. -/
theorem c9_missing_context :
    (∀ (data : List Row) (s : SchemaInput) (v : Bool),
        create data s v none = Except.error FrameError.missingContextError)
    ∧ (∀ (data : List Row) (s : SchemaInput) (v : Bool) (t : TkContext),
        create data s v (some t) = mkFrame t data s v)
    ∧ (∀ (data : List Row) (s : SchemaInput) (v : Bool) (t : TkContext),
        (∃ f, mkFrame t data s v = Except.ok f)
          ∨ ∃ e, mkFrame t data s v = Except.error e
              ∧ (e = FrameError.emptySourceError
                  ∨ e = FrameError.schemaLengthMismatchError
                  ∨ e = FrameError.rowWidthMismatchError)) := by
  refine ⟨fun data s v => rfl, fun data s v t => rfl, ?_⟩
  intro data s v t
  cases hm : mkFrame t data s v with
  | ok f => exact Or.inl ⟨f, rfl⟩
  | error e => exact Or.inr ⟨e, rfl, mkFrame_error t data s v e hm⟩

/-- C2: materializing with validate=false passes every row through unchanged,
and a frame created with validation disabled holds exactly the input rows. -/
theorem c2_passthrough :
    (∀ (sch : Schema) (rows : List Row), materialize sch rows false = Except.ok rows)
    ∧ (∀ (data : List Row) (s : SchemaInput) (t : TkContext) (f : Frame),
        create data s false (some t) = Except.ok f → f.rows = data) := by
  constructor
  · intro sch rows; rfl
  · intro data s t f h
    simp only [create, mkFrame] at h
    cases hres : resolve s data with
    | error e => rw [hres] at h; exact Except.noConfusion h
    | ok sch =>
        simp only [hres, materialize, if_neg, Bool.false_eq_true, ite_false] at h
        injection h with h2
        rw [← h2]

/-- C2 witness: the passthrough theorem applied at a one-row frame. -/
theorem c2_passthrough_witness :
    Frame.rows ⟨[("C0", DataType.IntT)], [[Value.VInt 1]]⟩ = [[Value.VInt 1]] :=
  c2_passthrough.2 [[Value.VInt 1]] SchemaInput.noSchema ⟨⟩
    ⟨[("C0", DataType.IntT)], [[Value.VInt 1]]⟩ rfl

/-- C7: a bare column-name list whose length differs from the observed row
width aborts create with SchemaLengthMismatchError before any casting. -/
theorem c7_schema_length_mismatch :
    ∀ (ns : List ColumnName) (data : List Row) (v : Bool) (t : TkContext),
      sample data ≠ [] → ns.length ≠ rowWidth (sample data) →
        create data (SchemaInput.names ns) v (some t)
          = Except.error FrameError.schemaLengthMismatchError := by
  intro ns data v t hne hlen
  have hemp : (sample data).isEmpty = false := by
    cases h2 : sample data with
    | nil => exact absurd h2 hne
    | cons a l => rfl
  simp [create, mkFrame, resolve, hemp, hlen]

/-- C7 witness: names x, y against rows of width 3. -/
theorem c7_schema_length_mismatch_witness :
    create [[Value.VInt 1, Value.VInt 2, Value.VInt 3]]
        (SchemaInput.names ["x", "y"]) true (some ⟨⟩)
      = Except.error FrameError.schemaLengthMismatchError :=
  c7_schema_length_mismatch ["x", "y"] [[Value.VInt 1, Value.VInt 2, Value.VInt 3]]
    true ⟨⟩ (by decide) (by decide)

/-- C1: under lenient validation a cell whose value cannot be cast becomes the
absence marker None, the row is retained with every already-typed cell intact,
the output has as many rows as the input, and the worked example materializes
to the rows [1, 2, 3] and [4, None, 6]. -/
theorem c1_lenient_cast :
    (∀ (v : Value) (t : DataType),
        cast v t = CastOutcome.failure → castCell v t = Value.VNone)
    ∧ (∀ (v : Value) (t : DataType), infer_scalar_type v = t → castCell v t = v)
    ∧ (∀ (sch : Schema) (row : Row), row.length = sch.length →
          ∃ out, castRow sch row = Except.ok out ∧ out.length = row.length)
    ∧ (∀ (sch : Schema) (rows out : List Row),
          materialize sch rows true = Except.ok out → out.length = rows.length)
    ∧ create [[Value.VInt 1, Value.VInt 2, Value.VInt 3],
              [Value.VInt 4, Value.VStr "five", Value.VInt 6]]
        (SchemaInput.full [("a", DataType.IntT), ("b", DataType.IntT), ("c", DataType.IntT)])
        true (some ⟨⟩)
      = Except.ok ⟨[("a", DataType.IntT), ("b", DataType.IntT), ("c", DataType.IntT)],
          [[Value.VInt 1, Value.VInt 2, Value.VInt 3],
           [Value.VInt 4, Value.VNone, Value.VInt 6]]⟩ := by
  refine ⟨?_, ?_, ?_, ?_, ?_⟩
  · intro v t h; simp [castCell, h]
  · intro v t h; subst h; cases v <;> rfl
  · intro sch row h
    refine ⟨List.zipWith (fun c v => castCell v c.2) sch row, ?_, ?_⟩
    · unfold castRow; rw [if_pos h]
    · rw [List.length_zipWith]; omega
  · intro sch rows out h
    refine castRows_ok_length sch rows out ?_
    simpa [materialize] using h
  · rfl

/-- C1 witness: the lenient-cast theorem applied at the claim's inputs. -/
theorem c1_lenient_cast_witness :
    castCell (Value.VStr "five") DataType.IntT = Value.VNone
    ∧ castCell (Value.VInt 7) DataType.IntT = Value.VInt 7
    ∧ (∃ out, castRow [("a", DataType.IntT)] [Value.VStr "five"] = Except.ok out
          ∧ out.length = 1)
    ∧ ([[Value.VNone]] : List Row).length = ([[Value.VStr "five"]] : List Row).length :=
  ⟨c1_lenient_cast.1 _ _ rfl,
   c1_lenient_cast.2.1 _ _ rfl,
   c1_lenient_cast.2.2.1 [("a", DataType.IntT)] [Value.VStr "five"] rfl,
   c1_lenient_cast.2.2.2.1 [("a", DataType.IntT)] [[Value.VStr "five"]] [[Value.VNone]] rfl⟩

/-- C3: per-column inference is the left-to-right generalize-fold of the sampled
values' natural types seeded with the first row's type; the result is the most
general type observed, and a column mixing integers and decimals infers Float. -/
theorem c3_inference_fold :
    (∀ (v : Value) (rest : List Value),
        inferColumnType (v :: rest)
          = rest.foldl (fun t w => generalize t (infer_scalar_type w)) (infer_scalar_type v))
    ∧ (∀ (vals : List Value) (v : Value), v ∈ vals →
        rank (infer_scalar_type v) ≤ rank (inferColumnType vals))
    ∧ (∀ vals : List Value, vals ≠ [] → inferColumnType vals ∈ vals.map infer_scalar_type)
    ∧ (∀ (n : Int) (q : Rat), inferColumnType [Value.VInt n, Value.VFloat q] = DataType.FloatT)
    ∧ (∀ (data : List Row) (sch : Schema),
        resolve SchemaInput.noSchema data = Except.ok sch →
          sch.map Prod.snd = inferTypes (sample data)) := by
  refine ⟨?_, ?_, ?_, ?_, ?_⟩
  · intro v rest; rfl
  · intro vals v h
    cases vals with
    | nil => cases h
    | cons w rest =>
        simp only [inferColumnType]
        rcases List.mem_cons.mp h with h2 | h2
        · rw [h2]; exact rank_le_foldl_seed rest _
        · exact rank_le_foldl_mem rest _ v h2
  · intro vals h
    cases vals with
    | nil => exact absurd rfl h
    | cons w rest =>
        simp only [inferColumnType, List.map_cons]
        rcases foldl_generalize_mem rest (infer_scalar_type w) with h2 | h2
        · rw [h2]; exact List.mem_cons_self _ _
        · exact List.mem_cons_of_mem _ h2
  · intro n q; rfl
  · intro data sch h
    rw [resolve_noSchema_ok data sch h]
    exact List.map_snd_zip _ _ (by rw [synthNames_length, inferTypes_length])

/-- C3 witness: the inference-fold theorem applied at concrete columns. -/
theorem c3_inference_fold_witness :
    rank (infer_scalar_type (Value.VInt 1))
      ≤ rank (inferColumnType [Value.VInt 1, Value.VFloat 2])
    ∧ inferColumnType [Value.VStr "a"] ∈ ([Value.VStr "a"] : List Value).map infer_scalar_type
    ∧ List.map Prod.snd [("C0", DataType.IntT)] = inferTypes (sample [[Value.VInt 1]]) :=
  ⟨c3_inference_fold.2.1 [Value.VInt 1, Value.VFloat 2] (Value.VInt 1)
      (List.mem_cons_self _ _),
   c3_inference_fold.2.2.1 [Value.VStr "a"] (by decide),
   c3_inference_fold.2.2.2.2 [[Value.VInt 1]] [("C0", DataType.IntT)] rfl⟩

/-- C4: with no schema the resolved schema pairs synthesized names C0, C1, C2,
... in column order with per-column inferred types; the worked example yields
the schema [(C0, Int), (C1, String)]. -/
theorem c4_name_synthesis :
    (∀ (data : List Row) (sch : Schema),
        resolve SchemaInput.noSchema data = Except.ok sch →
          sch.map Prod.fst = synthNames (rowWidth (sample data)))
    ∧ synthNames 3 = ["C0", "C1", "C2"]
    ∧ create [[Value.VInt 1, Value.VStr "a"], [Value.VInt 2, Value.VStr "b"]]
        SchemaInput.noSchema false (some ⟨⟩)
      = Except.ok ⟨[("C0", DataType.IntT), ("C1", DataType.StringT)],
                   [[Value.VInt 1, Value.VStr "a"], [Value.VInt 2, Value.VStr "b"]]⟩ := by
  refine ⟨?_, ?_, ?_⟩
  · intro data sch h
    rw [resolve_noSchema_ok data sch h]
    exact List.map_fst_zip _ _ (by rw [synthNames_length, inferTypes_length])
  · rfl
  · rfl

/-- C4 witness: the name-synthesis theorem applied at a one-column frame. -/
theorem c4_name_synthesis_witness :
    List.map Prod.fst [("C0", DataType.StringT)]
      = synthNames (rowWidth (sample [[Value.VStr "a"]])) :=
  c4_name_synthesis.1 [[Value.VStr "a"]] [("C0", DataType.StringT)] rfl

/-- C5: schema inference reads at most the first 100 rows, and a column whose
first 100 sampled values are all Int is inferred as Int regardless of any
later rows. -/
theorem c5_sample_boundary :
    (∀ data : List Row,
        resolve SchemaInput.noSchema data = resolve SchemaInput.noSchema (data.take 100))
    ∧ (∀ (ns : List ColumnName) (data : List Row),
        resolve (SchemaInput.names ns) data = resolve (SchemaInput.names ns) (data.take 100))
    ∧ (∀ (data : List Row) (i : Nat),
        sample data ≠ [] →
        (∀ r ∈ sample data, infer_scalar_type (r.getD i Value.VNone) = DataType.IntT) →
        inferColumnType (columnValues (sample data) i) = DataType.IntT) := by
  refine ⟨?_, ?_, ?_⟩
  · intro data; simp only [resolve, sample_take]
  · intro ns data; simp only [resolve, sample_take]
  · intro data i hne hall
    have hvals : ∀ w ∈ columnValues (sample data) i, infer_scalar_type w = DataType.IntT := by
      intro w hw
      rcases List.mem_map.mp hw with ⟨r, hr, he⟩
      rw [← he]
      exact hall r hr
    cases hv : columnValues (sample data) i with
    | nil =>
        unfold columnValues at hv
        exact absurd (List.map_eq_nil_iff.mp hv) hne
    | cons w rest =>
        rw [hv] at hvals
        simp only [inferColumnType]
        rw [hvals w (List.mem_cons_self _ _)]
        exact foldl_generalize_int rest (fun v hvm => hvals v (List.mem_cons_of_mem _ hvm))

/-- C5 witness: 100 Int rows followed by a String at row 101 still infer Int. -/
theorem c5_sample_boundary_witness :
    inferColumnType (columnValues
        (sample (List.replicate 100 [Value.VInt 1] ++ [[Value.VStr "x"]])) 0)
      = DataType.IntT :=
  c5_sample_boundary.2.2 (List.replicate 100 [Value.VInt 1] ++ [[Value.VStr "x"]]) 0
    (by decide) (by decide)

end sparktk
